import Mathlib

/-!
Verification development for the `webtrc-voice-chat` SFU server.

The definitions below are a shallow embedding of `src/user.go`: the
per-participant signaling handlers (`HandleEvent`, `HandleOffer`), the
renegotiation machinery (`AddTrack`, `SendOffer`, the `OnTrack` callback),
the fan-out engine (`receiveInTrackRTP`, `WriteRTP`,
`broadcastIncomingRTP`) and the connection-state callback.  The external
pion framework (peer connections, tracks) is modelled as explicit record
state with boolean failure oracles standing for the framework's fallible
operations.  The `Room` type and its methods are not part of `src/`; they
are modelled from the specification (section 4.2).
-/

namespace VoiceChat

/-- An audio codec as extracted from a session description by the media
engine (`PopulateFromSDP` followed by `GetCodecsByKind(audio)`). -/
structure Codec where
  name : String
  payloadType : Nat
deriving Repr, DecidableEq

/-- A session description.  The Go struct carries a type and an SDP
string; we carry the type tag and the list of audio codecs that the media
engine would parse out of the SDP, which is all `user.go` inspects. -/
structure SessionDescription where
  sdpType : String := ""
  audioCodecs : List Codec := []
deriving Repr, DecidableEq

/-- The zero value `webrtc.SessionDescription{}` of the Go struct. -/
def zeroSessionDescription : SessionDescription := {}

/-- An ICE candidate init object; passed through verbatim. -/
structure ICECandidateInit where
  candidate : String
deriving Repr, DecidableEq

/-- An RTP packet: the stream id (SSRC) plus the rest of the packet,
which `user.go` never inspects. -/
structure RTPPacket where
  ssrc : Nat
  seqNumber : Nat := 0
  payload : List Nat := []
deriving Repr, DecidableEq

/-- A local (outbound) track created by `pc.NewTrack`.  `written` records
the packets written through to the track; `writeFails` is the oracle for
the framework's `Track.WriteRTP` failing. -/
structure Track where
  payloadType : Nat
  ssrc : Nat
  written : List RTPPacket := []
  writeFails : Bool := false
deriving Repr, DecidableEq

/-- Transceiver directions used by `AddTransceiver`. -/
inductive Direction where
  | sendrecv
  | recvonly
  | sendonly
deriving Repr, DecidableEq

/-- The per-participant peer connection.  Observable state mutated by
`user.go` plus boolean oracles deciding whether each fallible framework
operation fails, and the descriptions the framework would produce. -/
structure PeerConnection where
  remoteDescription : Option SessionDescription := none
  localDescription : Option SessionDescription := none
  transceivers : List Direction := []
  localTracks : List Track := []
  candidates : List ICECandidateInit := []
  createOfferFails : Bool := false
  createdOffer : SessionDescription := {}
  createAnswerFails : Bool := false
  createdAnswer : SessionDescription := {}
  setLocalFails : Bool := false
  setRemoteFails : Bool := false
  addTransceiverFails : Bool := false
  newTrackFails : Bool := false
  addTrackFails : Bool := false
  addCandidateFails : Bool := false
deriving Repr, DecidableEq

/-- `pc.SetRemoteDescription`. -/
def PeerConnection.setRemoteDescription (pc : PeerConnection)
    (sd : SessionDescription) : Except String PeerConnection :=
  if pc.setRemoteFails then .error "SetRemoteDescription failed"
  else .ok { pc with remoteDescription := some sd }

/-- `pc.SetLocalDescription`. -/
def PeerConnection.setLocalDescription (pc : PeerConnection)
    (sd : SessionDescription) : Except String PeerConnection :=
  if pc.setLocalFails then .error "SetLocalDescription failed"
  else .ok { pc with localDescription := some sd }

/-- `pc.AddTransceiver`. -/
def PeerConnection.addTransceiver (pc : PeerConnection)
    (d : Direction) : Except String PeerConnection :=
  if pc.addTransceiverFails then .error "AddTransceiver failed"
  else .ok { pc with transceivers := pc.transceivers ++ [d] }

/-- `pc.NewTrack(payloadType, ssrc, "pion", "pion")`: creates a fresh
local track carrying the given SSRC. -/
def PeerConnection.newTrack (pc : PeerConnection)
    (payloadType ssrc : Nat) : Except String Track :=
  if pc.newTrackFails then .error "NewTrack failed"
  else .ok { payloadType := payloadType, ssrc := ssrc }

/-- `pc.AddTrack`. -/
def PeerConnection.addTrack (pc : PeerConnection)
    (t : Track) : Except String PeerConnection :=
  if pc.addTrackFails then .error "AddTrack failed"
  else .ok { pc with localTracks := pc.localTracks ++ [t] }

/-- `pc.AddICECandidate`. -/
def PeerConnection.addICECandidate (pc : PeerConnection)
    (c : ICECandidateInit) : Except String PeerConnection :=
  if pc.addCandidateFails then .error "AddICECandidate failed"
  else .ok { pc with candidates := pc.candidates ++ [c] }

/-- `pc.CreateOffer(nil)`. -/
def PeerConnection.createOffer (pc : PeerConnection) :
    Except String SessionDescription :=
  if pc.createOfferFails then .error "CreateOffer failed"
  else .ok pc.createdOffer

/-- `pc.CreateAnswer(nil)`. -/
def PeerConnection.createAnswer (pc : PeerConnection) :
    Except String SessionDescription :=
  if pc.createAnswerFails then .error "CreateAnswer failed"
  else .ok pc.createdAnswer

/-- A signaling event (the `Event` struct of `user.go`): tagged record
with optional payload fields. -/
structure Event where
  type : String
  offer : Option SessionDescription := none
  answer : Option SessionDescription := none
  candidate : Option ICECandidateInit := none
  desc : String := ""
deriving Repr, DecidableEq

/-- Outcome of a Go handler: returned `nil`, returned a non-nil `error`,
or crashed the whole process (`panic` / `log.Fatalf`). -/
inductive GoResult where
  | ok
  | err (msg : String)
  | fatal (msg : String)
deriving Repr, DecidableEq

/-- The `User` struct of `user.go`: id, peer connection, websocket send
queue (as the list of enqueued events), the inbound track, the
outbound-tracks map keyed by SSRC (as an association list), the RTP
channel contents, the stop flag, and the process log lines this user's
code emitted. -/
structure User where
  id : Nat
  pc : PeerConnection := {}
  send : List Event := []
  inTrack : Option Track := none
  outTracks : List (Nat × Track) := []
  rtpCh : List RTPPacket := []
  stop : Bool := false
  logs : List String := []
deriving Repr, DecidableEq

/-- Go map read `outTracks[ssrc]` on the association-list model. -/
def lookupTrack : List (Nat × Track) → Nat → Option Track
  | [], _ => none
  | (k, t) :: rest, ssrc => if k = ssrc then some t else lookupTrack rest ssrc

/-- Go map write `outTracks[ssrc] = t` on the association-list model:
overwrites an existing binding, otherwise appends. -/
def insertTrack : List (Nat × Track) → Nat → Track → List (Nat × Track)
  | [], k, t => [(k, t)]
  | (k', t') :: rest, k, t =>
      if k' = k then (k, t) :: rest else (k', t') :: insertTrack rest k t

/-- `u.SendJSON`: serialize and enqueue on the websocket send channel
(serialization of an `Event` cannot fail). -/
def User.SendJSON (u : User) (e : Event) : User :=
  { u with send := u.send ++ [e] }

/-- `u.SendErr`: enqueue an `error` event with the given description. -/
def User.SendErr (u : User) (msg : String) : User :=
  u.SendJSON { type := "error", desc := msg }

/-- Append a line to the process log. -/
def User.addLog (u : User) (msg : String) : User :=
  { u with logs := u.logs ++ [msg] }

/-- Modelled from the spec: the `Room` type is not under `src/`; section
4.2 describes it as a mutable set of participants with join/leave and
snapshot queries. -/
structure Room where
  users : List User
deriving Repr, DecidableEq

/-- Modelled from the spec: `participants()` — snapshot of current
members (the Go `room.GetUsers()`). -/
def Room.GetUsers (r : Room) : List User := r.users

/-- Modelled from the spec: `other participants(p)` — snapshot excluding
`p` (the Go `room.GetOtherUsers(u)`). -/
def Room.GetOtherUsers (r : Room) (u : User) : List User :=
  r.users.filter (fun v => v.id != u.id)

/-- Modelled from the spec: `join(p)` — add `p` to the membership. -/
def Room.Join (r : Room) (u : User) : Room :=
  { users := r.users ++ [u] }

/-- Modelled from the spec: `leave(p)` — remove `p`; idempotent. -/
def Room.Leave (r : Room) (u : User) : Room :=
  { users := r.users.filter (fun v => v.id != u.id) }

/-- `u.GetRoomTracks`: the inbound tracks of all users in the room
(including `u` itself — the Go code iterates `u.room.GetUsers()`). -/
def User.GetRoomTracks (u : User) (room : Room) : List Track :=
  room.GetUsers.filterMap (fun user => user.inTrack)

/-- The payload-type search loop of `supportOpus`: the first audio codec
named "OPUS" determines the payload type; zero if none is found. -/
def findOpusPayloadType : List Codec → Nat
  | [] => 0
  | c :: rest => if c.name = "OPUS" then c.payloadType else findOpusPayloadType rest

/-- `u.supportOpus`: the offer is accepted iff an audio codec named
"OPUS" with a nonzero payload type is found in it. -/
def supportOpus (offer : SessionDescription) : Bool :=
  findOpusPayloadType offer.audioCodecs != 0

/-- `webrtc.DefaultPayloadTypeOpus`. -/
def defaultPayloadTypeOpus : Nat := 111

/-- `u.AddTrack(ssrc)`: create a local track with the given SSRC, add it
to the peer connection, and record it in the outbound-tracks map keyed by
the track's SSRC. -/
def User.AddTrack (u : User) (ssrc : Nat) : User × Except String Unit :=
  match u.pc.newTrack defaultPayloadTypeOpus ssrc with
  | .error e => (u, .error e)
  | .ok track =>
    match u.pc.addTrack track with
    | .error e =>
        (u.addLog ("ERROR Add remote track as peerConnection local track " ++ e),
         .error e)
    | .ok pc' =>
        ({ u with pc := pc',
                  outTracks := insertTrack u.outTracks track.ssrc track }, .ok ())

/-- `u.Offer()`: create an offer and apply it as local description; on
failure return the zero session description together with the error. -/
def User.Offer (u : User) : User × Except String SessionDescription :=
  match u.pc.createOffer with
  | .error e => (u, .error e)
  | .ok offer =>
    match u.pc.setLocalDescription offer with
    | .error e => (u, .error e)
    | .ok pc' => ({ u with pc := pc' }, .ok offer)

/-- `u.SendOffer()`: call `Offer`, overwrite its error with the result of
`SendJSON` (which cannot fail), enqueue the offer event — carrying the
zero-valued description when `Offer` failed — and return `nil`. -/
def User.SendOffer (u : User) : User × GoResult :=
  let offer := match (u.Offer).2 with
    | .ok o => o
    | .error _ => zeroSessionDescription
  ((u.Offer).1.SendJSON { type := "offer", offer := some offer }, .ok)

/-- `u.Answer()`: create an answer and apply it as local description. -/
def User.Answer (u : User) : User × Except String SessionDescription :=
  match u.pc.createAnswer with
  | .error e => (u, .error e)
  | .ok answer =>
    match u.pc.setLocalDescription answer with
    | .error e => (u, .error e)
    | .ok pc' => ({ u with pc := pc' }, .ok answer)

/-- `u.SendAnswer()`: create the answer and enqueue it; the `SendJSON`
error is discarded by the Go code (`return nil`). -/
def User.SendAnswer (u : User) : User × GoResult :=
  match u.Answer with
  | (u', .error e) => (u', .err e)
  | (u', .ok answer) =>
      (u'.SendJSON { type := "answer", answer := some answer }, .ok)

/-- The `for _, track := range tracks` loop of `HandleOffer`: each room
track is added via `AddTrack`; an `AddTrack` error is a `panic`. -/
def addRoomTracks (u : User) : List Track → User × Except String Unit
  | [] => (u, .ok ())
  | t :: rest =>
    match u.AddTrack t.ssrc with
    | (u', .error e) => (u', .error e)
    | (u', .ok _) => addRoomTracks u' rest

/-- The `len(tracks) == 0` branch of `HandleOffer`: when the room holds
no published inbound tracks, add a receive-only audio transceiver so the
answer has an audio media section. -/
def addRecvTransceiverIfNoTracks (u : User) (tracks : List Track) :
    User × GoResult :=
  if tracks.length = 0 then
    match u.pc.addTransceiver .recvonly with
    | .error e => (u, .err e)
    | .ok pc' => ({ u with pc := pc' }, .ok)
  else (u, .ok)

/-- The tail of `HandleOffer`: apply the remote description, then create
and send the answer. -/
def finishOffer (u : User) (offer : SessionDescription) : User × GoResult :=
  match u.pc.setRemoteDescription offer with
  | .error e => (u, .err e)
  | .ok pc' => User.SendAnswer { u with pc := pc' }

/-- `u.HandleOffer(offer)`: reject non-Opus offers; if the room has no
published inbound tracks add a receive-only audio transceiver; add one
outbound track per published inbound track in the room (the Go loop
`panic`s if `AddTrack` fails); apply the remote description; create and
send the answer. -/
def User.HandleOffer (u : User) (room : Room)
    (offer : SessionDescription) : User × GoResult :=
  if supportOpus offer = false then
    (u, .err "remote peer does not support opus codec")
  else
    match addRecvTransceiverIfNoTracks u (u.GetRoomTracks room) with
    | (u1, .ok) =>
      match addRoomTracks u1 (u.GetRoomTracks room) with
      | (u2, .error e) => (u2, .fatal e)
      | (u2, .ok _) => finishOffer u2 offer
    | other => other

/-- `u.HandleEvent(event)`: dispatch on the event type.  Missing payloads
yield an `error` event and `nil`; `answer` and `candidate` events discard
the framework's error; unknown types yield a `not implemented` error
event. -/
def User.HandleEvent (u : User) (room : Room) (event : Event) :
    User × GoResult :=
  if event.type == "offer" then
    match event.offer with
    | none => (u.SendErr "empty offer", .ok)
    | some o => u.HandleOffer room o
  else if event.type == "answer" then
    match event.answer with
    | none => (u.SendErr "empty answer", .ok)
    | some a =>
      match u.pc.setRemoteDescription a with
      | .error _ => (u, .ok)
      | .ok pc' => ({ u with pc := pc' }, .ok)
  else if event.type == "candidate" then
    match event.candidate with
    | none => (u.SendErr "empty candidate", .ok)
    | some c =>
      match u.pc.addICECandidate c with
      | .error _ => (u, .ok)
      | .ok pc' => ({ u with pc := pc' }, .ok)
  else
    (u.SendErr "not implemented", .ok)

/-- The body of the per-message goroutine spawned by `readPump`: run
`HandleEvent`; if it returned a non-nil error, log it and send it as an
`error` event.  A `fatal` outcome (a `panic` inside the handler) kills
the process: modelled as `none`. -/
def serveEvent (u : User) (room : Room) (event : Event) : Option User :=
  match u.HandleEvent room event with
  | (u', .ok) => some u'
  | (u', .err m) => some (u'.SendErr m)
  | (_, .fatal _) => none

/-- `track.WriteRTP(pkt)` on a local track: append the packet verbatim to
the track, unless the framework write fails. -/
def Track.WriteRTP (t : Track) (pkt : RTPPacket) : Track × Except String Unit :=
  if t.writeFails then (t, .error "track write failed")
  else ({ t with written := t.written ++ [pkt] }, .ok ())

/-- `u.WriteRTP(pkt)`: nil packet is rejected; look up the outbound track
by the packet's SSRC; if absent, log and return `errInvalidTrack` without
writing; otherwise write the packet through to that track unmodified. -/
def User.WriteRTP (u : User) (pkt : Option RTPPacket) : User × Except String Unit :=
  match pkt with
  | none => (u, .error "packet is nil")
  | some pkt =>
    match lookupTrack u.outTracks pkt.ssrc with
    | none =>
      (u.addLog ("WebRTCTransport.WriteRTP track==nil pkt.SSRC=" ++ toString pkt.ssrc),
       .error "track is nil")
    | some track =>
      match track.WriteRTP pkt with
      | (_, .error e) => (u, .error e)
      | (track', .ok _) =>
        ({ u with outTracks := insertTrack u.outTracks pkt.ssrc track' }, .ok ())

/-- The inner loop of `broadcastIncomingRTP` for one packet: invoke
`WriteRTP` on every user of the snapshot in order; a non-nil error is
printed and forwarding continues with the next user.  Returns the updated
users and the printed error messages. -/
def broadcastPacket (pkt : RTPPacket) : List User → List User × List String
  | [] => ([], [])
  | v :: rest =>
    ((v.WriteRTP (some pkt)).1 :: (broadcastPacket pkt rest).1,
     match (v.WriteRTP (some pkt)).2 with
     | .ok _ => (broadcastPacket pkt rest).2
     | .error e => e :: (broadcastPacket pkt rest).2)

/-- What `u.ReadRTP()` observes on the RTP channel. -/
inductive ChanRead where
  | closed
  | item (p : RTPPacket)
deriving Repr, DecidableEq

/-- One iteration of the `broadcastIncomingRTP` loop: a closed channel
makes `ReadRTP` return `errChanClosed`, which the loop `panic`s on;
otherwise the packet is fanned out to the snapshot of other users and the
loop continues. -/
def broadcastIncomingRTPStep (u : User) (room : Room) (r : ChanRead) :
    List User × List String × GoResult :=
  match r with
  | .closed => (room.GetOtherUsers u, [], .fatal "channel closed")
  | .item pkt =>
    ((broadcastPacket pkt (room.GetOtherUsers u)).1,
     (broadcastPacket pkt (room.GetOtherUsers u)).2, .ok)

/-- What `remoteTrack.ReadRTP()` returns inside `receiveInTrackRTP`. -/
inductive ReadResult where
  | eof
  | readErr (msg : String)
  | pkt (p : RTPPacket)
deriving Repr, DecidableEq

/-- Outcome of one iteration of the inbound reader. -/
inductive ReaderStep where
  | terminated
  | enqueue (p : RTPPacket)
  | processAbort (msg : String)
deriving Repr, DecidableEq

/-- One iteration of `receiveInTrackRTP`: `io.EOF` returns from the
goroutine; any other read error hits `log.Fatalf`, which aborts the whole
process; a packet is enqueued on the RTP channel. -/
def receiveInTrackRTPStep : ReadResult → ReaderStep
  | .eof => .terminated
  | .readErr msg => .processAbort ("rtp err => " ++ msg)
  | .pkt p => .enqueue p

/-- Stated from the spec's words, for comparison with the code: a reader
outcome after which "other Participants and the process continue", i.e.
anything except aborting the whole process. -/
def processSurvivesReaderStep : ReaderStep → Bool
  | .processAbort _ => false
  | _ => true

/-- ICE connection states. -/
inductive ICEConnectionState where
  | stateNew
  | checking
  | connected
  | completed
  | disconnected
  | failed
  | closed
deriving Repr, DecidableEq

/-- String rendering used by the handler's log line. -/
def ICEConnectionState.str : ICEConnectionState → String
  | .stateNew => "new"
  | .checking => "checking"
  | .connected => "connected"
  | .completed => "completed"
  | .disconnected => "disconnected"
  | .failed => "failed"
  | .closed => "closed"

/-- The `OnICEConnectionStateChange` callback of `serveWs`: it only logs.
On `connected` it logs "user joined"; on `disconnected`, `failed` or
`closed` it logs "user leaved" (the membership delete is commented out in
the source); the user's stop flag and the room are returned as they
were. -/
def onICEConnectionStateChange (u : User) (room : Room)
    (s : ICEConnectionState) : User × Room :=
  let u1 := u.addLog ("Connection State has changed " ++ s.str)
  if s = .connected then
    (u1.addLog "user joined", room)
  else if s = .disconnected ∨ s = .failed ∨ s = .closed then
    (u1.addLog "user leaved", room)
  else
    (u1, room)

/-- The per-peer body of the `OnTrack` callback's loop: the publisher
itself (identified by `uid`) is skipped; every other user gets
`AddTrack(ssrc)` — whose error is a `panic` — followed by `SendOffer`. -/
def onTrackUser (ssrc : Nat) (uid : Nat) (v : User) : Except String User :=
  if v.id = uid then .ok v
  else
    match v.AddTrack ssrc with
    | (_, .error e) => .error e
    | (v1, .ok _) => .ok (v1.SendOffer).1

/-- The `OnTrack` loop over the room snapshot. -/
def onTrackUsers (ssrc uid : Nat) : List User → Except String (List User)
  | [] => .ok []
  | v :: rest =>
    match onTrackUser ssrc uid v with
    | .error e => .error e
    | .ok v' =>
      match onTrackUsers ssrc uid rest with
      | .error e => .error e
      | .ok vs => .ok (v' :: vs)

/-- The `OnTrack` callback of `serveWs`, acting on the room state: set the
remote track as the publisher's inbound track, then for every other user
in the room add an outbound track with the inbound track's SSRC and send
that user a fresh offer. -/
def onTrack (room : Room) (uid : Nat) (remoteTrack : Track) :
    Except String Room :=
  match onTrackUsers remoteTrack.ssrc uid
      (room.users.map (fun u =>
        if u.id = uid then { u with inTrack := some remoteTrack } else u)) with
  | .error e => .error e
  | .ok us => .ok { users := us }

/-- Does `b` hold an outbound track keyed by the SSRC of track `t`? -/
def hasOutboundFor (b : User) (t : Track) : Bool :=
  (lookupTrack b.outTracks t.ssrc).isSome

/-- The room-wide subscription invariant: every pair of distinct users
(A, B) with A published has B holding an outbound track keyed by A's
inbound SSRC. -/
def publishedInvariant (r : Room) : Bool :=
  r.users.all fun a => r.users.all fun b =>
    a.id == b.id ||
    (match a.inTrack with
     | some t => hasOutboundFor b t
     | none => true)

/-! ### Concrete inputs used by the witness and counterexample theorems -/

/-- A published inbound track with SSRC 42. -/
def c1Track : Track := { payloadType := 111, ssrc := 42 }

/-- A two-user room, nobody published yet. -/
def c1RoomBefore : Room := ⟨[{ id := 1 }, { id := 2 }]⟩

/-- The room state `onTrack` produces when user 1 publishes `c1Track`
into `c1RoomBefore`. -/
def c1RoomAfter : Room :=
  ⟨[{ id := 1, inTrack := some c1Track },
    { id := 2,
      pc := { localDescription := some zeroSessionDescription,
              localTracks := [c1Track] },
      send := [{ type := "offer", offer := some zeroSessionDescription }],
      outTracks := [(42, c1Track)] }]⟩

/-- A user that has already published an inbound track with SSRC 5 and is
alone in its room. -/
def c2Track : Track := { payloadType := 111, ssrc := 5 }

/-- See `c2Track`. -/
def c2User : User := { id := 1, inTrack := some c2Track }

/-- The single-user room around `c2User`. -/
def c2Room : Room := ⟨[c2User]⟩

/-- An offer advertising the Opus codec. -/
def opusOffer : SessionDescription :=
  { sdpType := "offer", audioCodecs := [{ name := "OPUS", payloadType := 111 }] }

/-- A fresh unpublished user for the amended-C2 witness. -/
def c2wUser : User := { id := 4 }

/-- The room holding only `c2wUser`. -/
def c2wRoom : Room := ⟨[c2wUser]⟩

/-- A user for the C3 evaluation. -/
def c3User : User := { id := 7 }

/-- A two-user room containing `c3User`. -/
def c3Room : Room := ⟨[c3User, { id := 8 }]⟩

/-- An offer with no Opus codec at all. -/
def nonOpusOffer : SessionDescription :=
  { sdpType := "offer",
    audioCodecs := [{ name := "PCMU", payloadType := 0 },
                    { name := "G722", payloadType := 9 }] }

/-- A user for the C4 witness. -/
def c4User : User := { id := 9 }

/-- The room holding only `c4User`. -/
def c4Room : Room := ⟨[c4User]⟩

/-- An outbound track with SSRC 5 for the C6 witness. -/
def c6Track : Track := { payloadType := 111, ssrc := 5 }

/-- A user holding `c6Track` in its outbound-tracks map under key 5. -/
def c6User : User := { id := 2, outTracks := [(5, c6Track)] }

/-- A packet whose SSRC has no outbound track on `c6User`. -/
def c6PktMiss : RTPPacket := { ssrc := 6 }

/-- A packet whose SSRC matches `c6Track`. -/
def c6PktHit : RTPPacket := { ssrc := 5 }

/-- A user for the C9 witness. -/
def c9User : User := { id := 3 }

/-- A user whose peer connection fails to create offers, for C10. -/
def c10User : User := { id := 6, pc := { createOfferFails := true } }

/-! ### Helper lemmas -/

theorem lookupTrack_insertTrack (l : List (Nat × Track)) (k k' : Nat) (t : Track) :
    lookupTrack (insertTrack l k t) k' =
      if k = k' then some t else lookupTrack l k' := by
  induction l with
  | nil => simp [insertTrack, lookupTrack]
  | cons p rest ih =>
    obtain ⟨k₀, t₀⟩ := p
    by_cases h0 : k₀ = k
    · subst h0
      simp only [insertTrack, if_pos rfl, lookupTrack]
      by_cases h1 : k₀ = k'
      · subst h1; simp
      · simp [h1]
    · simp only [insertTrack, if_neg h0, lookupTrack, ih]
      split_ifs <;> simp_all

theorem lookupTrack_insertTrack_isSome (l : List (Nat × Track)) (k k' : Nat)
    (t : Track) (h : (lookupTrack l k').isSome = true) :
    (lookupTrack (insertTrack l k t) k').isSome = true := by
  rw [lookupTrack_insertTrack]
  by_cases hk : k = k' <;> simp [hk, h]

theorem offer_fields (u : User) :
    (User.Offer u).1.send = u.send ∧
    (User.Offer u).1.outTracks = u.outTracks ∧
    (User.Offer u).1.inTrack = u.inTrack ∧
    (User.Offer u).1.id = u.id ∧
    (User.Offer u).1.stop = u.stop := by
  unfold User.Offer
  cases h : u.pc.createOffer with
  | error e => simp [h]
  | ok o =>
    cases h2 : u.pc.setLocalDescription o with
    | error e => simp [h, h2]
    | ok pc' => simp [h, h2]

theorem sendOffer_fields (u : User) :
    (User.SendOffer u).1.send =
      u.send ++ [{ type := "offer",
                   offer := some (match (User.Offer u).2 with
                                  | .ok o => o
                                  | .error _ => zeroSessionDescription) : Event }] ∧
    (User.SendOffer u).1.outTracks = u.outTracks ∧
    (User.SendOffer u).1.inTrack = u.inTrack ∧
    (User.SendOffer u).1.id = u.id ∧
    (User.SendOffer u).1.stop = u.stop := by
  obtain ⟨hs, ho, hi, hid, hst⟩ := offer_fields u
  unfold User.SendOffer User.SendJSON
  exact ⟨by rw [hs], ho, hi, hid, hst⟩

theorem addTrack_ok (u u' : User) (ssrc : Nat)
    (h : User.AddTrack u ssrc = (u', Except.ok ())) :
    u'.outTracks =
      insertTrack u.outTracks ssrc
        { payloadType := defaultPayloadTypeOpus, ssrc := ssrc } ∧
    u'.send = u.send ∧ u'.inTrack = u.inTrack ∧ u'.id = u.id ∧
    u'.pc.transceivers = u.pc.transceivers ∧
    u'.pc.remoteDescription = u.pc.remoteDescription ∧
    u'.stop = u.stop := by
  unfold User.AddTrack PeerConnection.newTrack PeerConnection.addTrack at h
  by_cases h1 : u.pc.newTrackFails
  · simp [h1] at h
  · by_cases h2 : u.pc.addTrackFails
    · simp [h1, h2] at h
    · simp only [h1, h2, if_neg, Bool.false_eq_true, if_false] at h
      obtain ⟨h3, -⟩ := Prod.mk.injEq .. ▸ h
      subst h3
      simp

/-! ### Claim theorems -/

/-- C3: at an ICE connection-state change to `disconnected`, `failed` or
`closed` the handler in `serveWs` evaluates to a user whose stop flag is
still unset and a room with unchanged membership — it only appends the
log lines (including the misleading "user leaved") — although the claim
and the spec require the Participant to be marked stopped and removed
from the Room. -/
theorem iceStateChange_only_logs :
    ((onICEConnectionStateChange c3User c3Room ICEConnectionState.disconnected).1.stop = false ∧
     (onICEConnectionStateChange c3User c3Room ICEConnectionState.disconnected).2 = c3Room ∧
     (onICEConnectionStateChange c3User c3Room ICEConnectionState.disconnected).1.logs =
       ["Connection State has changed disconnected", "user leaved"]) ∧
    ((onICEConnectionStateChange c3User c3Room ICEConnectionState.failed).1.stop = false ∧
     (onICEConnectionStateChange c3User c3Room ICEConnectionState.failed).2 = c3Room) ∧
    ((onICEConnectionStateChange c3User c3Room ICEConnectionState.closed).1.stop = false ∧
     (onICEConnectionStateChange c3User c3Room ICEConnectionState.closed).2 = c3Room) :=
  ⟨⟨rfl, rfl, rfl⟩, ⟨rfl, rfl⟩, ⟨rfl, rfl⟩⟩

/-- C5 counterexample: a non-EOF read error in `receiveInTrackRTP` hits
`log.Fatalf`, after which the process does not continue — refuting the
claim that such a failure is fatal to that Participant only. -/
theorem receiveInTrack_readErr_kills_process :
    processSurvivesReaderStep
      (receiveInTrackRTPStep (ReadResult.readErr "connection reset")) = false :=
  rfl

/-- C5 (amended): the inbound reader terminates cleanly on end-of-stream,
enqueues packets otherwise, and on any other read error aborts the whole
process via `log.Fatalf`. -/
theorem receiveInTrack_step_behaviour :
    receiveInTrackRTPStep ReadResult.eof = ReaderStep.terminated ∧
    (∀ p, receiveInTrackRTPStep (ReadResult.pkt p) = ReaderStep.enqueue p) ∧
    (∀ msg, receiveInTrackRTPStep (ReadResult.readErr msg) =
      ReaderStep.processAbort ("rtp err => " ++ msg)) :=
  ⟨rfl, fun _ => rfl, fun _ => rfl⟩

/-- C6: `WriteRTP` looks up the outbound track by the packet's SSRC; when
it is absent the packet is dropped — only a log line is appended and the
missing-track error is returned, terminating nothing — and when it is
present (and the framework write succeeds) the packet is appended to that
track unmodified. -/
theorem writeRTP_lookup_behaviour (u : User) (pkt : RTPPacket) :
    (lookupTrack u.outTracks pkt.ssrc = none →
      User.WriteRTP u (some pkt) =
        ({ u with logs := u.logs ++
            ["WebRTCTransport.WriteRTP track==nil pkt.SSRC=" ++ toString pkt.ssrc] },
         Except.error "track is nil")) ∧
    (∀ t, lookupTrack u.outTracks pkt.ssrc = some t → t.writeFails = false →
      User.WriteRTP u (some pkt) =
        ({ u with outTracks := (insertTrack u.outTracks pkt.ssrc
                    { t with written := t.written ++ [pkt] }) },
         Except.ok ())) := by
  constructor
  · intro h
    simp [User.WriteRTP, h, User.addLog]
  · intro t h hw
    simp [User.WriteRTP, h, Track.WriteRTP, hw]

/-- C6 witness: the missing-SSRC packet is dropped with the missing-track
error, and the matching-SSRC packet is written through unmodified. -/
theorem writeRTP_lookup_behaviour_witness :
    User.WriteRTP c6User (some c6PktMiss) =
      ({ c6User with logs := c6User.logs ++
          ["WebRTCTransport.WriteRTP track==nil pkt.SSRC=" ++ toString c6PktMiss.ssrc] },
       Except.error "track is nil") ∧
    User.WriteRTP c6User (some c6PktHit) =
      ({ c6User with outTracks := (insertTrack c6User.outTracks c6PktHit.ssrc
                  { c6Track with written := c6Track.written ++ [c6PktHit] }) },
       Except.ok ()) :=
  ⟨(writeRTP_lookup_behaviour c6User c6PktMiss).1 rfl,
   (writeRTP_lookup_behaviour c6User c6PktHit).2 c6Track rfl rfl⟩

theorem broadcastPacket_pointwise (pkt : RTPPacket) (l : List User) :
    broadcastPacket pkt l =
      (l.map (fun v => (User.WriteRTP v (some pkt)).1),
       l.filterMap (fun v =>
         match (User.WriteRTP v (some pkt)).2 with
         | .ok _ => none
         | .error e => some e)) := by
  induction l with
  | nil => rfl
  | cons v rest ih =>
    simp only [broadcastPacket, ih, List.map, List.filterMap]
    cases h : (User.WriteRTP v (some pkt)).2 <;> simp [h]

/-- C7: one iteration of the forwarder loop over a dequeued packet: the
loop outcome is `ok` (the publisher's fan-out is not terminated), every
user of the snapshot ends in exactly the state its own `WriteRTP` call
produces — so one subscriber's failure never affects the others — and
each failure is merely collected as a printed error message. -/
theorem broadcast_write_failure_isolated (u : User) (room : Room) (pkt : RTPPacket) :
    broadcastIncomingRTPStep u room (ChanRead.item pkt) =
      ((room.GetOtherUsers u).map (fun v => (User.WriteRTP v (some pkt)).1),
       (room.GetOtherUsers u).filterMap (fun v =>
         match (User.WriteRTP v (some pkt)).2 with
         | .ok _ => none
         | .error e => some e),
       GoResult.ok) := by
  simp [broadcastIncomingRTPStep, broadcastPacket_pointwise]

/-- C8: an `offer`, `answer` or `candidate` event with a missing payload
makes `HandleEvent` enqueue the corresponding `empty ...` error event and
return `nil`, with the peer connection untouched. -/
theorem handleEvent_empty_payload (u : User) (room : Room)
    (o : Option SessionDescription) (a : Option SessionDescription)
    (c : Option ICECandidateInit) (d : String) :
    User.HandleEvent u room
      { type := "offer", offer := none, answer := a, candidate := c, desc := d } =
        (u.SendErr "empty offer", GoResult.ok) ∧
    User.HandleEvent u room
      { type := "answer", offer := o, answer := none, candidate := c, desc := d } =
        (u.SendErr "empty answer", GoResult.ok) ∧
    User.HandleEvent u room
      { type := "candidate", offer := o, answer := a, candidate := none, desc := d } =
        (u.SendErr "empty candidate", GoResult.ok) ∧
    (u.SendErr "empty offer").pc = u.pc ∧
    (u.SendErr "empty answer").pc = u.pc ∧
    (u.SendErr "empty candidate").pc = u.pc :=
  ⟨rfl, rfl, rfl, rfl, rfl, rfl⟩

/-- C9: an event whose type is none of `offer`, `answer`, `candidate`
makes `HandleEvent` enqueue a `not implemented` error event and return
`nil`; the stop flag and the peer connection are untouched, so the
Participant continues. -/
theorem handleEvent_unknown_type (u : User) (room : Room) (e : Event)
    (h1 : e.type ≠ "offer") (h2 : e.type ≠ "answer") (h3 : e.type ≠ "candidate") :
    User.HandleEvent u room e = (u.SendErr "not implemented", GoResult.ok) ∧
    (u.SendErr "not implemented").stop = u.stop ∧
    (u.SendErr "not implemented").pc = u.pc := by
  refine ⟨?_, rfl, rfl⟩
  have e1 : (e.type == "offer") = false := beq_eq_false_iff_ne.mpr h1
  have e2 : (e.type == "answer") = false := beq_eq_false_iff_ne.mpr h2
  have e3 : (e.type == "candidate") = false := beq_eq_false_iff_ne.mpr h3
  simp [User.HandleEvent, e1, e2, e3]

/-- C9 witness: a `hangup` event gets the `not implemented` error reply
and changes nothing else. -/
theorem handleEvent_unknown_type_witness :
    User.HandleEvent c9User ⟨[]⟩ { type := "hangup" } =
      (c9User.SendErr "not implemented", GoResult.ok) ∧
    (c9User.SendErr "not implemented").stop = c9User.stop ∧
    (c9User.SendErr "not implemented").pc = c9User.pc :=
  handleEvent_unknown_type c9User ⟨[]⟩ { type := "hangup" }
    (by decide) (by decide) (by decide)

/-- C10: when `Offer` fails (offer creation or local-description
application), `SendOffer` discards the error: it still enqueues an offer
event carrying the zero-valued session description and returns `nil`. -/
theorem sendOffer_discards_offer_error (u : User) (e : String)
    (h : (User.Offer u).2 = Except.error e) :
    User.SendOffer u =
      ((User.Offer u).1.SendJSON
        { type := "offer", offer := some zeroSessionDescription }, GoResult.ok) ∧
    (User.Offer u).1.send = u.send := by
  refine ⟨?_, (offer_fields u).1⟩
  simp only [User.SendOffer, h]

/-- C10 witness: a user whose peer connection cannot create offers still
sends the offer event with the zero session description. -/
theorem sendOffer_discards_offer_error_witness :
    User.SendOffer c10User =
      ((User.Offer c10User).1.SendJSON
        { type := "offer", offer := some zeroSessionDescription }, GoResult.ok) ∧
    (User.Offer c10User).1.send = c10User.send :=
  sendOffer_discards_offer_error c10User "CreateOffer failed" rfl

theorem findOpusPayloadType_eq_zero (cs : List Codec)
    (h : ∀ c ∈ cs, c.name ≠ "OPUS") : findOpusPayloadType cs = 0 := by
  induction cs with
  | nil => rfl
  | cons c rest ih =>
    have hc : c.name ≠ "OPUS" := h c (by simp)
    simp only [findOpusPayloadType, if_neg hc]
    exact ih (fun x hx => h x (by simp [hx]))

/-- C4: an offer event whose session description contains no codec named
OPUS is answered (through the `readPump` goroutine wrapper) by exactly
one signaling error event with description
"remote peer does not support opus codec"; the resulting user differs
from the old one only in that appended send-queue entry, so no remote
description is applied, no transceiver is added and the outbound-tracks
map is unchanged. -/
theorem nonOpus_offer_rejected_unchanged (u : User) (room : Room)
    (offer : SessionDescription)
    (h : ∀ c ∈ offer.audioCodecs, c.name ≠ "OPUS") :
    serveEvent u room { type := "offer", offer := some offer } =
      some { u with send := u.send ++
        [{ type := "error", desc := "remote peer does not support opus codec" }] } := by
  have hop : supportOpus offer = false := by
    simp [supportOpus, findOpusPayloadType_eq_zero offer.audioCodecs h]
  simp [serveEvent, User.HandleEvent, User.HandleOffer, hop,
        User.SendErr, User.SendJSON]

/-- C4 witness: a PCMU/G722-only offer is rejected with the opus error
event and no other state change. -/
theorem nonOpus_offer_rejected_unchanged_witness :
    serveEvent c4User c4Room { type := "offer", offer := some nonOpusOffer } =
      some { c4User with send := c4User.send ++
        [{ type := "error", desc := "remote peer does not support opus codec" }] } :=
  nonOpus_offer_rejected_unchanged c4User c4Room nonOpusOffer (by decide)

/-- C2 counterexample: `c2User` is alone in its room and has published
inbound SSRC 5.  On a further Opus offer, `HandleOffer` succeeds and
provisions an outbound track keyed by the user's *own* inbound SSRC —
although the claim says outbound tracks are provisioned only for *other*
Participants' tracks — and, although the room holds no track of another
Participant, no receive-only transceiver is added. -/
theorem handleOffer_attaches_own_track :
    Room.GetOtherUsers c2Room c2User = [] ∧
    c2User.inTrack = some c2Track ∧
    (User.HandleOffer c2User c2Room opusOffer).2 = GoResult.ok ∧
    (lookupTrack (User.HandleOffer c2User c2Room opusOffer).1.outTracks
      c2Track.ssrc).isSome = true ∧
    (User.HandleOffer c2User c2Room opusOffer).1.pc.transceivers = [] :=
  ⟨rfl, rfl, rfl, rfl, rfl⟩

theorem addRecvTransceiver_ok (u u1 : User) (tracks : List Track)
    (h : addRecvTransceiverIfNoTracks u tracks = (u1, GoResult.ok)) :
    u1.outTracks = u.outTracks ∧ u1.send = u.send ∧ u1.inTrack = u.inTrack ∧
    u1.id = u.id ∧ u1.pc.remoteDescription = u.pc.remoteDescription ∧
    u1.stop = u.stop ∧
    (tracks = [] → u1.pc.transceivers = u.pc.transceivers ++ [Direction.recvonly]) ∧
    (tracks ≠ [] → u1 = u) := by
  unfold addRecvTransceiverIfNoTracks PeerConnection.addTransceiver at h
  by_cases hlen : tracks.length = 0
  · have htr : tracks = [] := List.length_eq_zero.mp hlen
    by_cases hf : u.pc.addTransceiverFails
    · simp [hlen, hf] at h
    · simp only [hlen, if_pos rfl, hf, Bool.false_eq_true, if_false] at h
      obtain ⟨h1, -⟩ := Prod.mk.injEq .. ▸ h
      subst h1
      simp [htr]
  · have htr : tracks ≠ [] := fun he => hlen (by simp [he])
    simp only [hlen, if_false] at h
    obtain ⟨h1, -⟩ := Prod.mk.injEq .. ▸ h
    subst h1
    simp [htr]

theorem addRoomTracks_ok (ts : List Track) (u u' : User)
    (h : addRoomTracks u ts = (u', Except.ok ())) :
    (∀ t ∈ ts, (lookupTrack u'.outTracks t.ssrc).isSome = true) ∧
    (∀ k, (lookupTrack u.outTracks k).isSome = true →
      (lookupTrack u'.outTracks k).isSome = true) ∧
    u'.send = u.send ∧ u'.inTrack = u.inTrack ∧ u'.id = u.id ∧
    u'.pc.transceivers = u.pc.transceivers ∧
    u'.pc.remoteDescription = u.pc.remoteDescription ∧
    u'.stop = u.stop := by
  induction ts generalizing u with
  | nil =>
    unfold addRoomTracks at h
    obtain ⟨h1, -⟩ := Prod.mk.injEq .. ▸ h
    subst h1
    simp
  | cons t rest ih =>
    unfold addRoomTracks at h
    rcases h2 : User.AddTrack u t.ssrc with ⟨v, r⟩
    rw [h2] at h
    cases r with
    | error e => simp at h
    | ok unitVal =>
      obtain ⟨ha1, ha2, ha3, ha4, ha5, ha6, ha7⟩ := addTrack_ok u v t.ssrc (by rw [h2])
      obtain ⟨hr1, hr2, hr3, hr4, hr5, hr6, hr7, hr8⟩ := ih v h
      refine ⟨?_, ?_, by rw [hr3, ha2], by rw [hr4, ha3], by rw [hr5, ha4],
              by rw [hr6, ha5], by rw [hr7, ha6], by rw [hr8, ha7]⟩
      · intro s hs
        rw [List.mem_cons] at hs
        rcases hs with hs | hs
        · subst hs
          apply hr2
          rw [ha1, lookupTrack_insertTrack, if_pos rfl]
          rfl
        · exact hr1 s hs
      · intro k hk
        apply hr2
        rw [ha1]
        exact lookupTrack_insertTrack_isSome _ _ _ _ hk

theorem finishOffer_ok (u u' : User) (offer : SessionDescription)
    (h : finishOffer u offer = (u', GoResult.ok)) :
    u'.outTracks = u.outTracks ∧
    u'.pc.remoteDescription = some offer ∧
    (∃ a, u'.send = u.send ++ [{ type := "answer", answer := some a : Event }]) ∧
    u'.inTrack = u.inTrack ∧ u'.pc.transceivers = u.pc.transceivers ∧
    u'.id = u.id ∧ u'.stop = u.stop := by
  unfold finishOffer PeerConnection.setRemoteDescription at h
  by_cases hf : u.pc.setRemoteFails
  · simp [hf] at h
  · simp only [hf, Bool.false_eq_true, if_false] at h
    unfold User.SendAnswer User.Answer PeerConnection.createAnswer
      PeerConnection.setLocalDescription at h
    by_cases hca : u.pc.createAnswerFails
    · simp [hca] at h
    · by_cases hsl : u.pc.setLocalFails
      · simp [hca, hsl] at h
      · simp only [hca, hsl, Bool.false_eq_true, if_false] at h
        obtain ⟨h1, -⟩ := Prod.mk.injEq .. ▸ h
        subst h1
        exact ⟨rfl, rfl, ⟨u.pc.createdAnswer, rfl⟩, rfl, rfl, rfl, rfl⟩

/-- C2 (amended): on an offer with a supported codec that `HandleOffer`
completes successfully, the server provisions — before answering — one
outbound track per already-published inbound track belonging to *any*
Participant in the same Room, the Participant itself included; only if
the Room holds no published inbound track at all is a receive-only audio
transceiver added; and the remote description is applied and the answer
sent. -/
theorem handleOffer_provisions_room_tracks (u : User) (room : Room)
    (offer : SessionDescription) (u' : User)
    (hok : User.HandleOffer u room offer = (u', GoResult.ok)) :
    (∀ t ∈ User.GetRoomTracks u room,
      (lookupTrack u'.outTracks t.ssrc).isSome = true) ∧
    (User.GetRoomTracks u room = [] →
      u'.pc.transceivers = u.pc.transceivers ++ [Direction.recvonly]) ∧
    (User.GetRoomTracks u room ≠ [] →
      u'.pc.transceivers = u.pc.transceivers) ∧
    u'.pc.remoteDescription = some offer ∧
    (∃ a, u'.send = u.send ++ [{ type := "answer", answer := some a : Event }]) ∧
    u'.inTrack = u.inTrack := by
  unfold User.HandleOffer at hok
  cases hb : supportOpus offer with
  | false =>
    rw [hb] at hok
    simp at hok
  | true =>
    rw [hb] at hok
    simp only [Bool.true_eq_false, if_false] at hok
    rcases hs1 : addRecvTransceiverIfNoTracks u (User.GetRoomTracks u room)
      with ⟨u1, r1⟩
    rw [hs1] at hok
    cases r1 with
    | err m =>
      replace hok : (u1, GoResult.err m) = (u', GoResult.ok) := hok
      simp at hok
    | fatal m =>
      replace hok : (u1, GoResult.fatal m) = (u', GoResult.ok) := hok
      simp at hok
    | ok =>
      replace hok :
          (match addRoomTracks u1 (User.GetRoomTracks u room) with
           | (u2, Except.error e) => (u2, GoResult.fatal e)
           | (u2, Except.ok _) => finishOffer u2 offer) = (u', GoResult.ok) := hok
      obtain ⟨hb1, hb2, hb3, hb4, hb5, hb6, hb7, hb8⟩ :=
        addRecvTransceiver_ok u u1 (User.GetRoomTracks u room) hs1
      rcases hs2 : addRoomTracks u1 (User.GetRoomTracks u room) with ⟨u2, r2⟩
      rw [hs2] at hok
      cases r2 with
      | error e =>
        replace hok : (u2, GoResult.fatal e) = (u', GoResult.ok) := hok
        simp at hok
      | ok unitVal =>
        replace hok : finishOffer u2 offer = (u', GoResult.ok) := hok
        obtain ⟨hc1, hc2, hc3, hc4, hc5, hc6, hc7, hc8⟩ :=
          addRoomTracks_ok (User.GetRoomTracks u room) u1 u2 hs2
        obtain ⟨hd1, hd2, hd3, hd4, hd5, hd6, hd7⟩ :=
          finishOffer_ok u2 u' offer hok
        refine ⟨?_, ?_, ?_, hd2, ?_, by rw [hd4, hc4, hb3]⟩
        · intro t ht
          rw [hd1]
          exact hc1 t ht
        · intro hemp
          rw [hd5, hc6, hb7 hemp]
        · intro hne
          rw [hd5, hc6, hb8 hne]
        · obtain ⟨a, ha⟩ := hd3
          exact ⟨a, by rw [ha, hc3, hb2]⟩

/-- C2 amended witness: a fresh user alone in a room with no published
tracks gets the receive-only transceiver, the remote description and the
answer. -/
theorem handleOffer_provisions_room_tracks_witness :
    (∀ t ∈ User.GetRoomTracks c2wUser c2wRoom,
      (lookupTrack (User.HandleOffer c2wUser c2wRoom opusOffer).1.outTracks
        t.ssrc).isSome = true) ∧
    (User.GetRoomTracks c2wUser c2wRoom = [] →
      (User.HandleOffer c2wUser c2wRoom opusOffer).1.pc.transceivers =
        c2wUser.pc.transceivers ++ [Direction.recvonly]) ∧
    (User.GetRoomTracks c2wUser c2wRoom ≠ [] →
      (User.HandleOffer c2wUser c2wRoom opusOffer).1.pc.transceivers =
        c2wUser.pc.transceivers) ∧
    (User.HandleOffer c2wUser c2wRoom opusOffer).1.pc.remoteDescription =
      some opusOffer ∧
    (∃ a, (User.HandleOffer c2wUser c2wRoom opusOffer).1.send =
      c2wUser.send ++ [{ type := "answer", answer := some a : Event }]) ∧
    (User.HandleOffer c2wUser c2wRoom opusOffer).1.inTrack = c2wUser.inTrack :=
  handleOffer_provisions_room_tracks c2wUser c2wRoom opusOffer
    (User.HandleOffer c2wUser c2wRoom opusOffer).1 (by rfl)

theorem publishedInvariant_iff (r : Room) :
    publishedInvariant r = true ↔
      ∀ a ∈ r.users, ∀ b ∈ r.users, a.id ≠ b.id → ∀ t, a.inTrack = some t →
        (lookupTrack b.outTracks t.ssrc).isSome = true := by
  unfold publishedInvariant
  rw [List.all_eq_true]
  constructor
  · intro h a ha b hb hne t ht
    have h2 := h a ha
    rw [List.all_eq_true] at h2
    have h3 := h2 b hb
    rw [Bool.or_eq_true] at h3
    rcases h3 with h3 | h3
    · exact absurd (beq_iff_eq.mp h3) hne
    · rw [ht] at h3
      exact h3
  · intro h a ha
    rw [List.all_eq_true]
    intro b hb
    rw [Bool.or_eq_true]
    by_cases hne : a.id = b.id
    · left
      exact beq_iff_eq.mpr hne
    · right
      cases hin : a.inTrack with
      | none => rfl
      | some t => exact h a ha b hb hne t hin

theorem inboundMap_id (uid : Nat) (tr : Track) (w : User) :
    ((if w.id = uid then { w with inTrack := some tr } else w) : User).id = w.id := by
  by_cases h : w.id = uid <;> simp [h]

theorem inboundMap_outTracks (uid : Nat) (tr : Track) (w : User) :
    ((if w.id = uid then { w with inTrack := some tr } else w) : User).outTracks =
      w.outTracks := by
  by_cases h : w.id = uid <;> simp [h]

theorem onTrackUser_ok (ssrc uid : Nat) (v v' : User)
    (h : onTrackUser ssrc uid v = Except.ok v') :
    v'.id = v.id ∧ v'.inTrack = v.inTrack ∧
    (v.id = uid → v' = v) ∧
    (v.id ≠ uid →
      lookupTrack v'.outTracks ssrc =
        some { payloadType := defaultPayloadTypeOpus, ssrc := ssrc } ∧
      (∀ k, (lookupTrack v.outTracks k).isSome = true →
        (lookupTrack v'.outTracks k).isSome = true) ∧
      (∃ e, v'.send = v.send ++ [e] ∧ e.type = "offer")) := by
  unfold onTrackUser at h
  by_cases hid : v.id = uid
  · rw [if_pos hid] at h
    injection h with h'
    subst h'
    exact ⟨rfl, rfl, fun _ => rfl, fun hne => absurd hid hne⟩
  · rw [if_neg hid] at h
    rcases h2 : User.AddTrack v ssrc with ⟨v1, r⟩
    rw [h2] at h
    cases r with
    | error e =>
      replace h : (Except.error e : Except String User) = Except.ok v' := h
      simp at h
    | ok unitVal =>
      replace h : Except.ok (User.SendOffer v1).1 = Except.ok v' := h
      injection h with h'
      subst h'
      obtain ⟨ha1, ha2, ha3, ha4, ha5, ha6, ha7⟩ := addTrack_ok v v1 ssrc (by rw [h2])
      obtain ⟨hs1, hs2, hs3, hs4, hs5⟩ := sendOffer_fields v1
      refine ⟨by rw [hs4, ha4], by rw [hs3, ha3],
              fun hcon => absurd hcon hid, fun _ => ⟨?_, ?_, ?_⟩⟩
      · rw [hs2, ha1, lookupTrack_insertTrack, if_pos rfl]
      · intro k hk
        rw [hs2, ha1]
        exact lookupTrack_insertTrack_isSome _ _ _ _ hk
      · exact ⟨_, by rw [hs1, ha2], rfl⟩

theorem onTrackUsers_mem (ssrc uid : Nat) (l l' : List User)
    (h : onTrackUsers ssrc uid l = Except.ok l') :
    ∀ v' ∈ l', ∃ v ∈ l, onTrackUser ssrc uid v = Except.ok v' := by
  induction l generalizing l' with
  | nil =>
    unfold onTrackUsers at h
    injection h with h'
    subst h'
    intro v' hv'
    simp at hv'
  | cons v rest ih =>
    unfold onTrackUsers at h
    cases h1 : onTrackUser ssrc uid v with
    | error e =>
      rw [h1] at h
      replace h : (Except.error e : Except String (List User)) = Except.ok l' := h
      simp at h
    | ok v1 =>
      rw [h1] at h
      cases h2 : onTrackUsers ssrc uid rest with
      | error e =>
        rw [h2] at h
        replace h : (Except.error e : Except String (List User)) = Except.ok l' := h
        simp at h
      | ok vs =>
        rw [h2] at h
        replace h : Except.ok (v1 :: vs) = Except.ok l' := h
        injection h with h'
        subst h'
        intro v' hv'
        rw [List.mem_cons] at hv'
        rcases hv' with hv' | hv'
        · subst hv'
          exact ⟨v, by simp, h1⟩
        · obtain ⟨w, hw, hw2⟩ := ih vs h2 v' hv'
          exact ⟨w, by simp [hw], hw2⟩

/-- C1: when `onTrack` fires for the publisher `uid` with the remote
track, and the room satisfied the subscription invariant beforehand (the
renegotiations of all earlier publications completed), then afterwards
(1) the invariant holds again — so every pair (A, B) with A published has
B holding an outbound track keyed by A's inbound SSRC — and in
particular (2) the publisher's inbound track is set to the remote track
and (3) every other user in the room now holds an outbound track whose
key and SSRC equal the new inbound track's SSRC and was sent a fresh
offer as the last event on its signaling queue. -/
theorem onTrack_renegotiation (room : Room) (uid : Nat) (remoteTrack : Track)
    (r' : Room)
    (hok : onTrack room uid remoteTrack = Except.ok r')
    (hpre : publishedInvariant room = true) :
    publishedInvariant r' = true ∧
    (∀ a ∈ r'.users, a.id = uid → a.inTrack = some remoteTrack) ∧
    (∀ b ∈ r'.users, b.id ≠ uid →
      (∃ t', lookupTrack b.outTracks remoteTrack.ssrc = some t' ∧
        t'.ssrc = remoteTrack.ssrc) ∧
      (∃ e, b.send.getLast? = some e ∧ e.type = "offer")) := by
  unfold onTrack at hok
  cases hrun : onTrackUsers remoteTrack.ssrc uid
      (room.users.map (fun u =>
        if u.id = uid then { u with inTrack := some remoteTrack } else u)) with
  | error e =>
    rw [hrun] at hok
    replace hok : (Except.error e : Except String Room) = Except.ok r' := hok
    simp at hok
  | ok us =>
    rw [hrun] at hok
    replace hok : Except.ok ({ users := us } : Room) = Except.ok r' := hok
    injection hok with hok
    subst hok
    have hmem := onTrackUsers_mem _ _ _ _ hrun
    rw [publishedInvariant_iff] at hpre
    refine ⟨?_, ?_, ?_⟩
    · rw [publishedInvariant_iff]
      intro a ha b hb hne t ht
      obtain ⟨va, hva, hoa⟩ := hmem a ha
      obtain ⟨vb, hvb, hob⟩ := hmem b hb
      obtain ⟨wa, hwa, hfa⟩ := List.mem_map.mp hva
      obtain ⟨wb, hwb, hfb⟩ := List.mem_map.mp hvb
      obtain ⟨hA1, hA2, hA3, hA4⟩ := onTrackUser_ok _ _ _ _ hoa
      obtain ⟨hB1, hB2, hB3, hB4⟩ := onTrackUser_ok _ _ _ _ hob
      have hva_id : va.id = wa.id := by rw [← hfa, inboundMap_id]
      have hvb_id : vb.id = wb.id := by rw [← hfb, inboundMap_id]
      by_cases hau : a.id = uid
      · -- the publisher published `remoteTrack`; every b with b.id ≠ uid got it
        have hbu : b.id ≠ uid := fun hcon => hne (hau.trans hcon.symm)
        have hvbu : vb.id ≠ uid := fun hcon => hbu (hB1.trans hcon)
        obtain ⟨hBk, hBmono, hBsend⟩ := hB4 hvbu
        have hva_uid : va.id = uid := hA1 ▸ hau
        have haeq : a = va := hA3 hva_uid
        have hwa_uid : wa.id = uid := hva_id ▸ hva_uid
        have hva_in : va.inTrack = some remoteTrack := by
          rw [← hfa, if_pos hwa_uid]
        have htr : t = remoteTrack := by
          rw [haeq, hva_in] at ht
          exact (Option.some.injEq _ _ ▸ ht).symm
        rw [htr, hBk]
        rfl
      · -- an earlier publisher: the pre-invariant carries over monotonically
        have hwa_ne : wa.id ≠ uid := fun hcon => hau (hA1.trans (hva_id.trans hcon))
        have hwa_eq : wa = va := by rw [← hfa, if_neg hwa_ne]
        have hwa_in : wa.inTrack = some t := by
          rw [hwa_eq, ← hA2]
          exact ht
        have hids : wa.id ≠ wb.id := by
          rw [← hva_id, ← hvb_id, ← hA1, ← hB1]
          exact hne
        have hpre' := hpre wa hwa wb hwb hids t hwa_in
        have hvb_out : vb.outTracks = wb.outTracks := by
          rw [← hfb, inboundMap_outTracks]
        by_cases hbu : b.id = uid
        · have hvbu : vb.id = uid := hB1 ▸ hbu
          have hbeq : b = vb := hB3 hvbu
          rw [hbeq, hvb_out]
          exact hpre'
        · have hvbu : vb.id ≠ uid := fun hcon => hbu (hB1.trans hcon)
          obtain ⟨hBk, hBmono, hBsend⟩ := hB4 hvbu
          apply hBmono
          rw [hvb_out]
          exact hpre'
    · intro a ha hau
      obtain ⟨va, hva, hoa⟩ := hmem a ha
      obtain ⟨wa, hwa, hfa⟩ := List.mem_map.mp hva
      obtain ⟨hA1, hA2, hA3, hA4⟩ := onTrackUser_ok _ _ _ _ hoa
      have hva_id : va.id = wa.id := by rw [← hfa, inboundMap_id]
      have hva_uid : va.id = uid := hA1 ▸ hau
      have hwa_uid : wa.id = uid := hva_id ▸ hva_uid
      have hva_in : va.inTrack = some remoteTrack := by
        rw [← hfa, if_pos hwa_uid]
      rw [hA2, hva_in]
    · intro b hb hbu
      obtain ⟨vb, hvb, hob⟩ := hmem b hb
      obtain ⟨hB1, hB2, hB3, hB4⟩ := onTrackUser_ok _ _ _ _ hob
      have hvbu : vb.id ≠ uid := fun hcon => hbu (hB1.trans hcon)
      obtain ⟨hBk, hBmono, hBsend⟩ := hB4 hvbu
      refine ⟨⟨_, hBk, rfl⟩, ?_⟩
      obtain ⟨e, he1, he2⟩ := hBsend
      exact ⟨e, by rw [he1, List.getLast?_concat], he2⟩

/-- C1 witness: user 1 publishes SSRC 42 into a two-user room in which
nobody had published; afterwards the invariant holds, user 1's inbound
track is set, and user 2 holds the outbound track for SSRC 42 with a
fresh offer as its last queued event. -/
theorem onTrack_renegotiation_witness :
    publishedInvariant c1RoomBefore = true ∧
    (publishedInvariant c1RoomAfter = true ∧
     (∀ a ∈ c1RoomAfter.users, a.id = 1 → a.inTrack = some c1Track) ∧
     (∀ b ∈ c1RoomAfter.users, b.id ≠ 1 →
       (∃ t', lookupTrack b.outTracks c1Track.ssrc = some t' ∧
         t'.ssrc = c1Track.ssrc) ∧
       (∃ e, b.send.getLast? = some e ∧ e.type = "offer"))) :=
  ⟨rfl, onTrack_renegotiation c1RoomBefore 1 c1Track c1RoomAfter rfl rfl⟩

end VoiceChat
